import Mathlib

/-!
# slua_unreal : `LuaState.cpp`

A shallow embedding of `Plugins/slua_unreal/Source/slua_unreal/Private/LuaState.cpp`
(namespace `slua`) and the properties of it that are settled here.

* The Lua C API is modelled by a small state (`LuaVM`): the value stack, the
  globals table and the table stored in `package.searchers`.
* The process-wide statics `world` and `stateMap`, the `LuaState` objects and
  the allocated `lua_State`s form the `System` state; every member function of
  `LuaState` is a function on `System`.
* What the file only calls (`luaL_openlibs`, `LuaObject::init`,
  `luaL_loadbuffer`, the execution of a chunk under `lua_pcall`,
  `luaL_tolstring`, the file loader delegate) is a parameter, bundled in `Env`.
* `Log::Log` and `Log::Error` are recorded as events, with their format string
  and their `%s` argument.
* A call that may run Lua code (`lua_pcall`, `luaL_tolstring`) has an outcome: it
  returns, raises a Lua error, or does not return.
-/

set_option linter.dupNamespace false

namespace slua

/-! ## Values -/

/-- A C character string (`const char*`): the characters before the terminating NUL,
one list element per `char`. -/
abbrev CStr := List Char

/-- A byte buffer (`uint8*` together with its length). -/
abbrev Bytes := List Nat

/-- The C functions that can be stored in a Lua value: the five `lua_CFunction`s that
LuaState.cpp defines (`import`, `print`, `error`, `loadUI`, `LuaState::loader`) and the
functions of the Lua standard library, told apart by name. -/
inductive CFunction where
  | import_
  | print
  | error
  | loadUI
  | loader
  | lib (name : String)
  deriving DecidableEq

/-- The tables the code reaches: the `package` table, the table in
`package.searchers`, and the other library tables. -/
inductive TableRef where
  | package
  | searchers
  | lib (name : String)
  deriving DecidableEq

/-- Lua values, as far as the code tells them apart. -/
inductive Value where
  | nil
  | str (s : CStr)
  | cfunction (f : CFunction)
  | chunk (buf : Bytes) (name : CStr)
  | table (r : TableRef)
  | other (tag : Nat)
  deriving DecidableEq

/-! ## Tables with integer keys -/

/-- The integer-keyed part of a Lua table: the entries whose value is not nil. -/
abbrev LuaTable := List (Nat × Value)

namespace LuaTable

/-- Raw read `t[n]`; an absent key reads as nil. -/
def rawgeti : LuaTable → Nat → Value
  | [], _ => Value.nil
  | (k, v) :: t, n => if k = n then v else rawgeti t n

/-- Remove the entry of key `n`. -/
def erase (t : LuaTable) (n : Nat) : LuaTable :=
  t.filter (fun e => decide (e.1 ≠ n))

/-- Raw write `t[n] = v`; writing nil removes the entry. -/
def rawseti (t : LuaTable) (n : Nat) (v : Value) : LuaTable :=
  if v = Value.nil then erase t n else (n, v) :: erase t n

/-- Search for a border upwards from `n`: the first `m ≥ n` with `t[m+1] == nil`. -/
def borderFrom (t : LuaTable) : Nat → Nat → Nat
  | 0, n => n
  | fuel + 1, n => if rawgeti t (n + 1) = Value.nil then n else borderFrom t fuel (n + 1)

/-- Raw length: the border of the table; for a sequence, its length.
A table with `k` entries has a border at most `k`, which bounds the search. -/
def rawlen (t : LuaTable) : Nat :=
  borderFrom t t.length 0

/-- The sequence `{xs[0], xs[1], ...}` stored at keys `1, 2, ...`. -/
def ofList (xs : List Value) : LuaTable :=
  (xs.enumFrom 1).filter (fun e => decide (e.2 ≠ Value.nil))

/-- The table read as a sequence: slots `1 .. rawlen t`. -/
def toList (t : LuaTable) : List Value :=
  (List.range (rawlen t)).map (fun i => rawgeti t (i + 1))

/-- What "a chain of length `L`" means: the table is a sequence of length `L`, that is,
slots `1..L` hold a value and every later slot is nil. -/
def IsChain (t : LuaTable) (L : Nat) : Prop :=
  (∀ i, 1 ≤ i → i ≤ L → rawgeti t i ≠ Value.nil) ∧ (∀ i, L < i → rawgeti t i = Value.nil)

/-- The effect on the table `t` of the loop of lines 184-187 of `LuaState::init`
started at `i`: `t[i] = t[i-1]` for `i` down to 3. -/
def shift : Nat → LuaTable → LuaTable
  | 0, t => t
  | i + 1, t => if i + 1 > 2 then shift i (rawseti t (i + 1) (rawgeti t i)) else t

end LuaTable

/-! ## The Lua state and the C API calls the file makes -/

/-- One `lua_State`: the value stack (bottom first, so stack index 1 is the head),
the globals, and the table `package.searchers`. -/
structure LuaVM where
  stack : List Value
  globals : List (String × Value)
  searchers : LuaTable

/-- Result of `luaL_newstate`: empty stack, no globals. -/
def LuaVM.new : LuaVM := ⟨[], [], []⟩

/-- Read a global; an unbound name reads as nil. -/
def getGlobal : List (String × Value) → String → Value
  | [], _ => Value.nil
  | (k, v) :: g, name => if k = name then v else getGlobal g name

/-- Bind a global. -/
def setGlobal (g : List (String × Value)) (name : String) (v : Value) : List (String × Value) :=
  (name, v) :: g.filter (fun e => decide (e.1 ≠ name))

/-- Value at a stack index: positive indices count from the bottom (1 is the first
element), negative ones from the top (-1 is the top). An index outside the stack
reads as nil. -/
def index2value (vm : LuaVM) (idx : Int) : Value :=
  if 0 < idx then vm.stack.getD (idx.toNat - 1) Value.nil
  else if idx < 0 then vm.stack.reverse.getD ((-idx).toNat - 1) Value.nil
  else Value.nil

def push (vm : LuaVM) (v : Value) : LuaVM :=
  { vm with stack := vm.stack ++ [v] }

def lua_gettop (vm : LuaVM) : Int := vm.stack.length

def lua_settop (vm : LuaVM) (n : Nat) : LuaVM :=
  { vm with stack := (vm.stack ++ List.replicate (n - vm.stack.length) Value.nil).take n }

def lua_pop (vm : LuaVM) (n : Nat) : LuaVM :=
  { vm with stack := vm.stack.take (vm.stack.length - n) }

def lua_pushcfunction (vm : LuaVM) (f : CFunction) : LuaVM :=
  push vm (Value.cfunction f)

def lua_pushvalue (vm : LuaVM) (idx : Int) : LuaVM :=
  push vm (index2value vm idx)

/-- Pops the top of the stack and binds it to the global `name`. -/
def lua_setglobal (vm : LuaVM) (name : String) : LuaVM :=
  { vm with globals := setGlobal vm.globals name (index2value vm (-1)),
            stack := vm.stack.dropLast }

def lua_getglobal (vm : LuaVM) (name : String) : LuaVM :=
  push vm (getGlobal vm.globals name)

/-- Pushes `t[k]` for the table `t` at `idx`. Of the string-keyed fields only
`package.searchers`, the one the code reads, is modelled; anything else reads as nil. -/
def lua_getfield (vm : LuaVM) (idx : Int) (k : String) : LuaVM :=
  push vm (match index2value vm idx with
    | Value.table TableRef.package =>
        if k = "searchers" then Value.table TableRef.searchers else Value.nil
    | _ => Value.nil)

def lua_rawlen (vm : LuaVM) (idx : Int) : Nat :=
  match index2value vm idx with
  | Value.table TableRef.searchers => vm.searchers.rawlen
  | Value.str s => s.length
  | _ => 0

/-- Pushes `t[n]` for the table `t` at `idx`. -/
def lua_rawgeti (vm : LuaVM) (idx : Int) (n : Nat) : LuaVM :=
  push vm (match index2value vm idx with
    | Value.table TableRef.searchers => vm.searchers.rawgeti n
    | _ => Value.nil)

/-- Does `t[n] = v` for the table `t` at `idx` and the value `v` on top of the stack,
and pops `v`. -/
def lua_rawseti (vm : LuaVM) (idx : Int) (n : Nat) : LuaVM :=
  match index2value vm idx with
  | Value.table TableRef.searchers =>
      { vm with searchers := vm.searchers.rawseti n (index2value vm (-1)),
                stack := vm.stack.dropLast }
  | _ => { vm with stack := vm.stack.dropLast }

/-! ## `LuaState::init`, the loader splice (lines 176-189) -/

namespace LuaState

/-- The loop of lines 184-187:
`for(int i=lua_rawlen(L,loaderTable)+1;i>2;i--) { lua_rawgeti(L,loaderTable,i-1); lua_rawseti(L,loaderTable,i); }`
started at `i`. -/
def init_shiftLoop (loaderTable : Int) : Nat → LuaVM → LuaVM
  | 0, vm => vm
  | i + 1, vm =>
      if i + 1 > 2 then
        init_shiftLoop loaderTable i
          (lua_rawseti (lua_rawgeti vm loaderTable i) loaderTable (i + 1))
      else vm

/-- Lines 176-189 of `LuaState::init`, for the C function `f` pushed at line 176
(`init` pushes `LuaState::loader`). -/
def init_spliceLoader (f : CFunction) (vm : LuaVM) : LuaVM :=
  let vm := lua_pushcfunction vm f
  let loaderFunc := lua_gettop vm
  let vm := lua_getglobal vm "package"
  let vm := lua_getfield vm (-1) "searchers"
  let loaderTable := lua_gettop vm
  let vm := init_shiftLoop loaderTable (lua_rawlen vm loaderTable + 1) vm
  let vm := lua_pushvalue vm loaderFunc
  lua_rawseti vm loaderTable 2

end LuaState

/-! ## What the file calls but does not define -/

/-- A value installed by the standard library: a library C function, a library
table, a string or something else; never a function of LuaState.cpp. -/
inductive LibValue where
  | fn (name : String)
  | table (name : String)
  | str (s : CStr)
  | other (tag : Nat)
  deriving DecidableEq

def LibValue.toValue : LibValue → Value
  | LibValue.fn n => Value.cfunction (CFunction.lib n)
  | LibValue.table n => Value.table (TableRef.lib n)
  | LibValue.str s => Value.str s
  | LibValue.other t => Value.other t

/-- What `luaL_openlibs` installs: the globals of the standard library (other than
`package`) and the names of the functions it puts in `package.searchers`, in order. -/
structure StdLib where
  globals : List (String × LibValue)
  searchers : List String

/-- The call `luaL_openlibs(L)`: binds the library globals and `package`, and creates
`package.searchers`. -/
def luaL_openlibs (lib : StdLib) (vm : LuaVM) : LuaVM :=
  { stack := vm.stack,
    globals := ("package", Value.table TableRef.package) ::
      (lib.globals.map (fun e => (e.1, e.2.toValue)) ++ vm.globals),
    searchers := LuaTable.ofList (lib.searchers.map (fun n => Value.cfunction (CFunction.lib n))) }

/-- A call of `Log::Log` or `Log::Error` with its format and its `%s` argument
(`none` is a NULL pointer), and the calls of `luaL_loadbuffer` and `lua_pcall`. -/
inductive Event where
  | log (fmt : String) (arg : Option CStr)
  | error (fmt : String) (arg : Option CStr)
  | loadbuffer (buf : Bytes) (chunk : CStr)
  | pcall (f : Value)
  deriving DecidableEq

/-- How the execution of a chunk ends. -/
inductive CallOutcome where
  | returns (results : List Value)
  | raises (err : Value)
  | diverges
  deriving DecidableEq

/-- The execution of a chunk: the state it leaves, what it logged through the
bridge functions, and how it ended. -/
structure CallResult where
  vm : LuaVM
  events : List Event
  outcome : CallOutcome

/-- How a conversion by `luaL_tolstring` ends: it returns a C string (`none` is NULL);
or a Lua error is raised, by the `__tostring` metamethod it runs or by `luaL_tolstring`
itself; or the metamethod runs forever. -/
inductive TolOutcome where
  | returns (s : Option CStr)
  | raises (err : Value)
  | diverges
  deriving DecidableEq

/-- A conversion by `luaL_tolstring`, which may run a `__tostring` metamethod: the state
it leaves, what the metamethod logged through the bridge functions, the number of stack
slots it uses besides the one of its result, and how it ended. -/
structure TolResult where
  vm : LuaVM
  events : List Event
  temps : Nat
  outcome : TolOutcome

/-- The parts of the Lua library and of the plugin that LuaState.cpp calls:
* `stdlib`: what `luaL_openlibs` installs;
* `objectInit`: `LuaObject::init(L)`;
* `compile buf chunk`: the error message of `luaL_loadbuffer`, `none` when the buffer compiles;
* `call buf chunk vm`: the execution of the chunk compiled from `buf` in state `vm`;
* `tolstring v vm`: the conversion of `v` by `luaL_tolstring` in state `vm`;
* `numstr t`: the string form of the value `Value.other t` when it is a number. -/
structure Env where
  stdlib : StdLib
  objectInit : LuaVM → LuaVM
  compile : Bytes → CStr → Option CStr
  call : Bytes → CStr → LuaVM → CallResult
  tolstring : Value → LuaVM → TolResult
  numstr : Nat → Option CStr

/-- How the call of a C function that may run Lua code ends: it returns, with what was
logged meanwhile; a Lua error propagates out of it (the rest of the function is not
run), with what was logged before; it does not return; or it pushes on a stack that has
no free slot left, which the C API leaves undefined. -/
inductive CReturn (α : Type) where
  | returns (a : α) (events : List Event)
  | raises (err : Value) (events : List Event)
  | diverges
  | undefined

/-- The log calls made during a call, as far as it is defined. -/
def CReturn.events {α : Type} : CReturn α → List Event
  | CReturn.returns _ events => events
  | CReturn.raises _ events => events
  | CReturn.diverges => []
  | CReturn.undefined => []

/-- The call `lua_tostring(L, idx)`: the string at `idx`, a number converted, else NULL. -/
def lua_tostring (env : Env) (vm : LuaVM) (idx : Int) : Option CStr :=
  match index2value vm idx with
  | Value.str s => some s
  | Value.other t => env.numstr t
  | _ => none

/-- The call `luaL_tolstring(L, idx, &len)` in a frame with `free` free stack slots: when
the conversion returns, its result is pushed and returned; when it raises, the error
propagates; the call is undefined when the slots it needs are not free. -/
def luaL_tolstring (env : Env) (free : Nat) (vm : LuaVM) (idx : Int) :
    CReturn (LuaVM × Option CStr) :=
  let r := env.tolstring (index2value vm idx) vm
  if free < r.temps + 1 then CReturn.undefined
  else
    match r.outcome with
    | TolOutcome.returns s =>
        CReturn.returns ({ r.vm with stack := vm.stack ++ [match s with
          | some s => Value.str s
          | none => Value.nil] }, s) r.events
    | TolOutcome.raises err => CReturn.raises err r.events
    | TolOutcome.diverges => CReturn.diverges

/-- The call `snprintf(chunk, size, "@%s", fn)`: the formatted text `@fn`, of which at
most `size - 1` characters are stored before the terminating NUL. -/
def snprintf_at (size : Nat) (fn : CStr) : CStr :=
  ('@' :: fn).take (size - 1)

/-! ## The bridge functions `print` and `error` (lines 60-78)

A `lua_CFunction` runs on a call frame: a `LuaVM` whose stack holds the arguments. -/

/-- The loop of `print`, lines 63-69, from `n` on, with `free` free stack slots, the text
`str` built and the log calls `evs` made so far; `fuel` bounds the iterations left. Every
`luaL_tolstring` leaves its result on the stack: nothing is popped. -/
def print_loop (env : Env) (top : Int) :
    Nat → Int → Nat → LuaVM → CStr → List Event → CReturn (LuaVM × CStr)
  | 0, _, _, vm, str, evs => CReturn.returns (vm, str) evs
  | fuel + 1, n, free, vm, str, evs =>
      if n ≤ top then
        match luaL_tolstring env free vm n with
        | CReturn.returns r e =>
            let str := str ++ ['\t']
            let str := match r.2 with
              | some s => str ++ s
              | none => str
            print_loop env top fuel (n + 1) (free - 1) r.1 str (evs ++ e)
        | CReturn.raises err e => CReturn.raises err (evs ++ e)
        | CReturn.diverges => CReturn.diverges
        | CReturn.undefined => CReturn.undefined
      else CReturn.returns (vm, str) evs

/-- `int print(lua_State *L)`, called on a frame with `free` free stack slots: the frame
it leaves and the number of results it returns, with the log calls made; or the error
that a conversion raised, in which case line 70 is not reached. -/
def print (env : Env) (free : Nat) (vm : LuaVM) : CReturn (LuaVM × Nat) :=
  let top := lua_gettop vm
  match print_loop env top top.toNat 1 free vm [] [] with
  | CReturn.returns r evs => CReturn.returns (r.1, 0) (evs ++ [Event.log "%s" (some r.2)])
  | CReturn.raises err evs => CReturn.raises err evs
  | CReturn.diverges => CReturn.diverges
  | CReturn.undefined => CReturn.undefined

/-- `int error(lua_State* L)`. -/
def error (env : Env) (vm : LuaVM) : LuaVM × List Event × Nat :=
  let err := lua_tostring env vm 1
  (vm, [Event.error "%s" err], 0)

/-! ## The process state and the class `LuaState` -/

/-- A non-null `lua_State*`. -/
abbrev Handle := Nat

/-- A `LuaState*` (`this`). -/
abbrev WrapperId := Nat

/-- A non-null `UWorld*`. -/
abbrev UWorld := Nat

/-- Lookup in a map keyed by addresses (`std::map::find`). -/
def find {β : Type} : List (Nat × β) → Nat → Option β
  | [], _ => none
  | (k, v) :: m, key => if k = key then some v else find m key

/-- Removal of a key (`std::map::erase`). -/
def eraseKey {β : Type} (m : List (Nat × β)) (key : Nat) : List (Nat × β) :=
  m.filter (fun e => decide (e.1 ≠ key))

/-- Insert or overwrite (`m[key] = v`). -/
def assign {β : Type} (m : List (Nat × β)) (key : Nat) (v : β) : List (Nat × β) :=
  (key, v) :: eraseKey m key

/-- The data members of a `LuaState` object: the file loader delegate (a NULL
`const char*` argument is `none`; a NULL result is `none`) and the `lua_State*`. -/
structure Wrapper where
  loadFileDelegate : Option (Option CStr → Option Bytes)
  L : Option Handle

/-- Modelled from the spec: the class `LuaVar` (LuaVar.h is not part of the source
given). A `LuaVar` holds the values a script produced; the default-constructed
`LuaVar()` is the empty/absent result. -/
structure LuaVar where
  vars : List Value
  deriving DecidableEq

/-- The default-constructed `LuaVar()`. -/
def LuaVar.empty : LuaVar := ⟨[]⟩

/-- The process: the statics `world` and `stateMap` (lines 37-38), the live `LuaState`
objects, the allocated `lua_State`s, and the log calls made so far. -/
structure System where
  world : Option UWorld
  stateMap : List (Handle × WrapperId)
  objects : List (WrapperId × Wrapper)
  vms : List (Handle × LuaVM)
  log : List Event

/-- Modelled from the spec: the constructor of the class `AutoStack` (declared outside
the source given), the "scoped acquisition" that "saves ... stack depth". -/
def AutoStack.save (vm : LuaVM) : Int := lua_gettop vm

/-- Modelled from the spec: the destructor of `AutoStack`, which "restores stack depth"
to the one saved, on every exit path. -/
def AutoStack.restore (top : Int) (vm : LuaVM) : LuaVM := lua_settop vm top.toNat

/-- The process at start: `world = nullptr`, empty `stateMap`. -/
def System.start : System := ⟨none, [], [], [], []⟩

namespace LuaState

/-- `uint8* LuaState::loadFile(const char* fn,uint32& len)`. -/
def loadFile (o : Wrapper) (fn : Option CStr) : Option Bytes :=
  match o.loadFileDelegate with
  | some d => d fn
  | none => none

/-- The constructor `LuaState::LuaState()` run at the address `this`; `none` when a
live object already occupies it. -/
def LuaState (s : System) (this : WrapperId) : Option System :=
  match find s.objects this with
  | some _ => none
  | none => some { s with objects := assign s.objects this ⟨none, none⟩ }

/-- `LuaState* LuaState::get(lua_State* L)`; `none` is `nullptr`. -/
def get (s : System) (L : Handle) : Option WrapperId :=
  find s.stateMap L

/-- `void LuaState::close()`; `none` when `this` is not a live object. -/
def close (s : System) (this : WrapperId) : Option System :=
  match find s.objects this with
  | none => none
  | some o =>
      let s := match o.L with
        | some L =>
            { s with stateMap := eraseKey s.stateMap L,
                     vms := eraseKey s.vms L,
                     objects := assign s.objects this { o with L := none } }
        | none => s
      some { s with world := none }

/-- The destructor `LuaState::~LuaState()`: `close()`, then the object is gone. -/
def destroy (s : System) (this : WrapperId) : Option System :=
  match close s this with
  | none => none
  | some s => some { s with objects := eraseKey s.objects this }

/-- `bool LuaState::init(UWorld* wld)`, where `newstate` is the address that
`luaL_newstate()` returns; `none` when `this` is not a live object or `newstate` is
the address of a `lua_State` that is still allocated. -/
def init (env : Env) (s : System) (this : WrapperId) (wld : Option UWorld)
    (newstate : Handle) : Option (System × Bool) :=
  match find s.objects this with
  | none => none
  | some o =>
      match wld with
      | none => some (s, false)
      | some w =>
          match find s.vms newstate with
          | some _ => none
          | none =>
              let vm := LuaVM.new
              let vm := luaL_openlibs env.stdlib vm
              let vm := lua_pushcfunction vm CFunction.import_
              let vm := lua_setglobal vm "import"
              let vm := lua_pushcfunction vm CFunction.print
              let vm := lua_setglobal vm "print"
              let vm := lua_pushcfunction vm CFunction.loadUI
              let vm := lua_setglobal vm "loadUI"
              let vm := init_spliceLoader CFunction.loader vm
              let vm := env.objectInit vm
              let vm := lua_settop vm 0
              some ({ s with world := some w,
                             objects := assign s.objects this { o with L := some newstate },
                             stateMap := assign s.stateMap newstate this,
                             vms := assign s.vms newstate vm }, true)

/-- `int LuaState::_pushErrorHandler(lua_State* state)`. -/
def _pushErrorHandler (vm : LuaVM) : LuaVM × Int :=
  let vm := lua_pushcfunction vm CFunction.error
  (vm, lua_gettop vm)

/-- `int LuaState::pushErrorHandler(lua_State* L)`; `none` when the `ensure` fails and
the end iterator is dereferenced. -/
def pushErrorHandler (s : System) (L : Handle) (vm : LuaVM) : Option (LuaVM × Int) :=
  match find s.stateMap L with
  | none => none
  | some _ => some (_pushErrorHandler vm)

/-- The call `lua_pcall(L, 0, LUA_MULTRET, errfunc)` of the chunk on top of the stack:
the state after it, what was logged meanwhile, and the status (`true` is `LUA_OK`);
`none` when the chunk does not return. On an error the message handler at `errfunc`
runs on the error value and its result replaces it. -/
def lua_pcall (env : Env) (vm : LuaVM) (errfunc : Int) : Option (LuaVM × List Event × Bool) :=
  let f := index2value vm (-1)
  let base := lua_pop vm 1
  match f with
  | Value.chunk buf chunk =>
      let r := env.call buf chunk base
      match r.outcome with
      | CallOutcome.returns results =>
          some ({ r.vm with stack := base.stack ++ results }, r.events, true)
      | CallOutcome.raises err =>
          match index2value base errfunc with
          | Value.cfunction CFunction.error =>
              let h := error env { r.vm with stack := [err] }
              some ({ r.vm with stack := base.stack ++ [Value.nil] }, r.events ++ h.2.1, false)
          | _ => some ({ r.vm with stack := base.stack ++ [err] }, r.events, false)
      | CallOutcome.diverges => none
  | _ => some ({ base with stack := base.stack ++ [Value.str "attempt to call a non-function value".toList] },
        [], false)

/-- `LuaVar LuaState::doBuffer(const uint8* buf,uint32 len, const char* chunk)`.
`none` when the function does not return: `this` is not a live object, `L` is null or
not allocated, the `ensure` of `pushErrorHandler` fails, or the chunk runs forever. -/
def doBuffer (env : Env) (s : System) (this : WrapperId) (buf : Bytes) (chunk : CStr) :
    Option (System × LuaVar) :=
  match find s.objects this with
  | none => none
  | some o =>
  match o.L with
  | none => none
  | some L =>
  match find s.vms L with
  | none => none
  | some vm =>
      let g := AutoStack.save vm
      match pushErrorHandler s L vm with
      | none => none
      | some (vm, errfunc) =>
          match env.compile buf chunk with
          | some msg =>
              let vm := push vm (Value.str msg)
              let err := lua_tostring env vm (-1)
              let vm := AutoStack.restore g vm
              some ({ s with vms := assign s.vms L vm,
                             log := s.log ++ [Event.loadbuffer buf chunk,
                                              Event.error "DoBuffer failed: %s" err] },
                    LuaVar.empty)
          | none =>
              let vm := push vm (Value.chunk buf chunk)
              match lua_pcall env vm errfunc with
              | none => none
              | some (vm, events, ok) =>
                  let vm := AutoStack.restore g vm
                  let s := { s with vms := assign s.vms L vm,
                                    log := s.log ++ [Event.loadbuffer buf chunk,
                                      Event.pcall (Value.chunk buf chunk)] ++ events }
                  if ok then some (s, LuaVar.empty) else some (s, LuaVar.empty)

/-- `LuaVar LuaState::doString(const char* str)`. -/
def doString (env : Env) (s : System) (this : WrapperId) (str : CStr) :
    Option (System × LuaVar) :=
  doBuffer env s this (str.map Char.toNat) str

/-- `LuaVar LuaState::doFile(const char* fn)`. -/
def doFile (env : Env) (s : System) (this : WrapperId) (fn : CStr) :
    Option (System × LuaVar) :=
  match find s.objects this with
  | none => none
  | some o =>
      match loadFile o (some fn) with
      | some buf =>
          let chunk := snprintf_at 256 fn
          doBuffer env s this buf chunk
      | none => some (s, LuaVar.empty)

/-- `int LuaState::loader(lua_State* L)`, called by the VM `L` on the frame `frame`
whose stack holds the module name: the process state and the frame it leaves, and the
number of results. `none` when `LuaState::get(L)` is null (or dangling) and is
dereferenced, or when a NULL name reaches `snprintf`. -/
def loader (env : Env) (s : System) (L : Handle) (frame : LuaVM) :
    Option (System × LuaVM × Nat) :=
  match get s L with
  | none => none
  | some state =>
  match find s.objects state with
  | none => none
  | some o =>
      let fn := lua_tostring env frame 1
      match loadFile o fn with
      | some buf =>
          match fn with
          | none => none
          | some name =>
              let chunk := snprintf_at 256 name
              match env.compile buf chunk with
              | none =>
                  some ({ s with log := s.log ++ [Event.loadbuffer buf chunk] },
                        push frame (Value.chunk buf chunk), 1)
              | some msg =>
                  let frame := push frame (Value.str msg)
                  let err := lua_tostring env frame (-1)
                  let frame := lua_pop frame 1
                  some ({ s with log := s.log ++ [Event.loadbuffer buf chunk,
                                                  Event.error "%s" err] }, frame, 0)
      | none =>
          some ({ s with log := s.log ++ [Event.error "Can't load file %s" fn] }, frame, 0)

end LuaState

/-- Number of `Log::Error` calls in a log. -/
def errorLogCount (log : List Event) : Nat :=
  (log.filter (fun e => match e with
    | Event.error _ _ => true
    | _ => false)).length

/-- Number of `luaL_loadbuffer` calls in a log. -/
def loadbufferCount (log : List Event) : Nat :=
  (log.filter (fun e => match e with
    | Event.loadbuffer _ _ => true
    | _ => false)).length

/-- Number of `lua_pcall` calls in a log. -/
def pcallCount (log : List Event) : Nat :=
  (log.filter (fun e => match e with
    | Event.pcall _ => true
    | _ => false)).length

/-- Modelled from the spec: the setter of the pluggable file loader (declared in
LuaState.h, which is not part of the source given): "supplied by the host at
Wrapper-configuration time". `none` when `this` is not a live object. -/
def LuaState.setLoadFileDelegate (s : System) (this : WrapperId)
    (d : Option CStr → Option Bytes) : Option System :=
  match find s.objects this with
  | none => none
  | some o => some { s with objects := assign s.objects this { o with loadFileDelegate := some d } }

/-- A Wrapper is Initialized when its `L` is the handle of an allocated `lua_State` that
the registry maps to it. -/
def Initialized (s : System) (this : WrapperId) : Prop :=
  ∃ o L vm, find s.objects this = some o ∧ o.L = some L ∧ find s.vms L = some vm
    ∧ find s.stateMap L = some this

/-- The lifecycle operations of a Wrapper. -/
inductive Op where
  | construct (this : WrapperId)
  | init (this : WrapperId) (wld : Option UWorld) (newstate : Handle)
  | close (this : WrapperId)
  | destroy (this : WrapperId)

/-- One lifecycle operation. -/
def step (env : Env) (s : System) : Op → Option System
  | Op.construct this => LuaState.LuaState s this
  | Op.init this wld newstate =>
      match LuaState.init env s this wld newstate with
      | some r => some r.1
      | none => none
  | Op.close this => LuaState.close s this
  | Op.destroy this => LuaState.destroy s this

/-- A sequence of lifecycle operations, from the state `s`. -/
def run (env : Env) (s : System) : List Op → Option System
  | [] => some s
  | op :: ops =>
      match step env s op with
      | some s => run env s ops
      | none => none

/-- The registry invariant: every entry of `stateMap` maps the handle of an allocated
`lua_State` to a live Wrapper whose `L` is that handle, and every allocated `lua_State`
has an entry. -/
def RegistryOk (s : System) : Prop :=
  (∀ h w, find s.stateMap h = some w → ∃ o, find s.objects w = some o ∧ o.L = some h)
  ∧ (∀ h, (find s.vms h).isSome = (find s.stateMap h).isSome)

/-- One lifecycle operation under the discipline "no `init` on a Wrapper whose `L` is
not null": such an `init` is refused (`none`). -/
def stepGuarded (env : Env) (s : System) : Op → Option System
  | Op.init this wld newstate =>
      match find s.objects this with
      | none => none
      | some o =>
          match o.L with
          | some _ => none
          | none => step env s (Op.init this wld newstate)
  | op => step env s op

/-- A sequence of lifecycle operations under that discipline. -/
def runGuarded (env : Env) (s : System) : List Op → Option System
  | [] => some s
  | op :: ops =>
      match stepGuarded env s op with
      | some s => runGuarded env s ops
      | none => none

/-! ## Concrete instances used to exercise the definitions -/

/-- A state in which `package` is bound as after `luaL_openlibs` and whose
`package.searchers` holds the given chain. -/
def vmWithChain (xs : List Value) : LuaVM :=
  { stack := [], globals := [("package", Value.table TableRef.package)],
    searchers := LuaTable.ofList xs }

/-- The standard library of Lua 5.3, as far as it matters here: some of the base
functions and the four default searchers. -/
def lua53 : StdLib :=
  { globals := [("print", LibValue.fn "luaB_print"), ("error", LibValue.fn "luaB_error"),
                ("require", LibValue.fn "ll_require"), ("string", LibValue.table "string"),
                ("_VERSION", LibValue.str "Lua 5.3".toList)],
    searchers := ["searcher_preload", "searcher_Lua", "searcher_C", "searcher_Croot"] }

/-- An environment for examples: buffers starting with the byte 33 do not compile;
a buffer starting with 0 raises an error when run, one starting with 1 runs forever,
any other returns the value `Value.other 42`; `LuaObject::init` changes nothing of
the modelled state; the value `Value.other 13` stands for a table whose `__tostring`
metamethod raises the error `boom`; every conversion uses two temporary stack slots and
logs nothing. -/
def testEnv : Env :=
  { stdlib := lua53,
    objectInit := fun vm => vm,
    compile := fun buf _ => if buf.head? = some 33 then some "syntax error".toList else none,
    call := fun buf _ vm =>
      { vm := vm, events := [],
        outcome := if buf.head? = some 0 then CallOutcome.raises (Value.str "boom".toList)
                   else if buf.head? = some 1 then CallOutcome.diverges
                   else CallOutcome.returns [Value.other 42] },
    tolstring := fun v vm =>
      { vm := vm, events := [], temps := 2,
        outcome := match v with
          | Value.str s => TolOutcome.returns (some s)
          | Value.nil => TolOutcome.returns (some "nil".toList)
          | Value.other 13 => TolOutcome.raises (Value.str "boom".toList)
          | _ => TolOutcome.returns none },
    numstr := fun _ => none }

/-- A file loader for examples: every name other than NULL and `missing.lua` names a
file, whose content is the single byte 2. -/
def testLoader : Option CStr → Option Bytes := fun fn =>
  match fn with
  | none => none
  | some name => if name = "missing.lua".toList then none else some [2]

/-- Wrapper 0 constructed and initialized on the handle 100, wrapper 1 constructed only. -/
def opsTwoWrappers : List Op :=
  [Op.construct 0, Op.construct 1, Op.init 0 (some 7) 100]

/-- Wrapper 0 initialized twice, on the handles 100 and 101, then closed. -/
def opsInitInitClose : List Op :=
  [Op.construct 0, Op.init 0 (some 7) 100, Op.init 0 (some 7) 101, Op.close 0]

/-- Wrapper 0 initialized twice, on the handles 100 and 101, then destroyed. -/
def opsInitInitDestroy : List Op :=
  [Op.construct 0, Op.init 0 (some 7) 100, Op.init 0 (some 7) 101, Op.destroy 0]

/-- The state after wrapper 0 is constructed and initialized on the handle 100. -/
def sysInitialized : System :=
  (run testEnv System.start [Op.construct 0, Op.init 0 (some 7) 100]).getD System.start

/-- The state `sysInitialized` after the file loader `testLoader` is set on wrapper 0. -/
def sysWithLoader : System :=
  (LuaState.setLoadFileDelegate sysInitialized 0 testLoader).getD System.start

/-! ## Lemmas on tables -/

namespace LuaTable

theorem rawgeti_erase (t : LuaTable) (n m : Nat) :
    rawgeti (erase t n) m = if m = n then Value.nil else rawgeti t m := by
  induction t with
  | nil => simp [erase, rawgeti]
  | cons e t ih =>
    obtain ⟨k, v⟩ := e
    unfold erase at ih ⊢
    by_cases hk : k = n
    · subst hk
      simp only [List.filter, ne_eq, not_true_eq_false, decide_False, rawgeti]
      rw [ih]
      by_cases hm : m = k
      · simp [hm]
      · have : ¬ k = m := fun h => hm h.symm
        simp [hm, this]
    · simp only [List.filter, ne_eq, hk, not_false_eq_true, decide_True, rawgeti]
      rw [ih]
      by_cases hm : m = n
      · subst hm
        simp [hk]
      · simp [hm]

theorem rawgeti_rawseti (t : LuaTable) (n m : Nat) (v : Value) :
    rawgeti (rawseti t n v) m = if m = n then v else rawgeti t m := by
  unfold rawseti
  by_cases hv : v = Value.nil
  · simp only [hv, if_true, rawgeti_erase]
  · simp only [hv, if_false, rawgeti, rawgeti_erase]
    by_cases hm : m = n
    · simp [hm]
    · have : ¬ n = m := fun h => hm h.symm
      simp [hm, this]

theorem length_erase_lt (t : LuaTable) (n : Nat) (h : rawgeti t n ≠ Value.nil) :
    (erase t n).length < t.length := by
  induction t with
  | nil => simp [rawgeti] at h
  | cons e t ih =>
    obtain ⟨k, v⟩ := e
    unfold erase at ih ⊢
    by_cases hk : k = n
    · subst hk
      simp only [List.filter, ne_eq, not_true_eq_false, decide_False, List.length_cons]
      exact Nat.lt_succ_of_le (List.length_filter_le _ _)
    · simp only [rawgeti, hk, if_false] at h
      simp only [List.filter, ne_eq, hk, not_false_eq_true, decide_True, List.length_cons]
      exact Nat.succ_lt_succ (ih h)

/-- A table whose slots `1..L` all hold a value has at least `L` entries. -/
theorem le_length_of_filled (L : Nat) : ∀ (t : LuaTable),
    (∀ i, 1 ≤ i → i ≤ L → rawgeti t i ≠ Value.nil) → L ≤ t.length := by
  induction L with
  | zero => intro t _; exact Nat.zero_le _
  | succ L ih =>
    intro t h
    have hL : rawgeti t (L + 1) ≠ Value.nil := h (L + 1) (by omega) (by omega)
    have h1 := length_erase_lt t (L + 1) hL
    have h2 : L ≤ (erase t (L + 1)).length := by
      apply ih
      intro i hi1 hi2
      rw [rawgeti_erase]
      have : ¬ i = L + 1 := by omega
      simp only [this, if_false]
      exact h i hi1 (by omega)
    omega

theorem borderFrom_eq (t : LuaTable) (L : Nat) (hnil : rawgeti t (L + 1) = Value.nil) :
    ∀ (fuel n : Nat), n ≤ L → (∀ i, n < i → i ≤ L → rawgeti t i ≠ Value.nil) →
      L - n ≤ fuel → borderFrom t fuel n = L := by
  intro fuel
  induction fuel with
  | zero =>
    intro n hn _ hf
    simp only [borderFrom]
    omega
  | succ fuel ih =>
    intro n hn hfill hf
    simp only [borderFrom]
    by_cases hEq : n = L
    · subst hEq
      simp [hnil]
    · have hne : rawgeti t (n + 1) ≠ Value.nil := hfill (n + 1) (by omega) (by omega)
      simp only [hne, if_false]
      exact ih (n + 1) (by omega) (fun i h1 h2 => hfill i (by omega) h2) (by omega)

/-- The raw length of a chain of length `L` is `L`. -/
theorem IsChain.rawlen_eq {t : LuaTable} {L : Nat} (h : IsChain t L) : rawlen t = L := by
  unfold rawlen
  exact borderFrom_eq t L (h.2 (L + 1) (Nat.lt_succ_self L)) t.length 0 (Nat.zero_le _)
    (fun i h1 h2 => h.1 i h1 h2) (by have := le_length_of_filled L t h.1; omega)

theorem rawgeti_shift : ∀ (i : Nat) (t : LuaTable) (j : Nat),
    rawgeti (shift i t) j = if 3 ≤ j ∧ j ≤ i then rawgeti t (j - 1) else rawgeti t j := by
  intro i
  induction i with
  | zero =>
    intro t j
    have : ¬ (3 ≤ j ∧ j ≤ 0) := by omega
    rw [if_neg this]
    rfl
  | succ i ih =>
    intro t j
    simp only [shift]
    by_cases hi : i + 1 > 2
    · simp only [hi, if_true]
      rw [ih]
      by_cases h1 : 3 ≤ j ∧ j ≤ i
      · have h2 : 3 ≤ j ∧ j ≤ i + 1 := ⟨h1.1, by omega⟩
        have h3 : ¬ j - 1 = i + 1 := by omega
        simp only [h1, h2, and_self, if_true, rawgeti_rawseti, h3, if_false]
      · simp only [h1, if_false, rawgeti_rawseti]
        by_cases h4 : j = i + 1
        · subst h4
          have : 3 ≤ i + 1 ∧ i + 1 ≤ i + 1 := ⟨by omega, le_refl _⟩
          simp [this]
        · have : ¬ (3 ≤ j ∧ j ≤ i + 1) := by omega
          simp [h4, this]
    · have : ¬ (3 ≤ j ∧ j ≤ i + 1) := by omega
      simp [hi, this]

end LuaTable

/-! ## Lemmas on the stack -/

theorem index2value_top (st : List Value) (v : Value) (g : List (String × Value))
    (t : LuaTable) : index2value ⟨st ++ [v], g, t⟩ (-1) = v := by
  simp [index2value]

theorem index2value_abs (a b : List Value) (v : Value) (g : List (String × Value))
    (t : LuaTable) : index2value ⟨a ++ v :: b, g, t⟩ ((a.length : Int) + 1) = v := by
  have h : (0 : Int) < (a.length : Int) + 1 := by omega
  have h2 : ((a.length : Int) + 1).toNat - 1 = a.length := by omega
  simp only [index2value, h, if_true, h2]
  rw [List.getD_eq_getElem?_getD, List.getElem?_append_right (le_refl _)]
  simp

namespace LuaState

/-- One turn of the loop of lines 184-187 on a stack whose slot `loaderTable` holds the
searchers table. -/
theorem shift_step (s : List Value) (a b : Value) (g : List (String × Value))
    (t : LuaTable) (i j : Nat) :
    lua_rawseti (lua_rawgeti ⟨s ++ [a, b, Value.table TableRef.searchers], g, t⟩
        ((s.length : Int) + 3) i) ((s.length : Int) + 3) j
      = ⟨s ++ [a, b, Value.table TableRef.searchers], g, t.rawseti j (t.rawgeti i)⟩ := by
  have e1 : s ++ [a, b, Value.table TableRef.searchers]
      = (s ++ [a, b]) ++ Value.table TableRef.searchers :: [] := by simp
  have e2 : ((s.length : Int) + 3) = (((s ++ [a, b]).length : Nat) : Int) + 1 := by
    simp only [List.length_append, List.length_cons, List.length_nil]
    push_cast
    ring
  have h1 : index2value ⟨s ++ [a, b, Value.table TableRef.searchers], g, t⟩
      ((s.length : Int) + 3) = Value.table TableRef.searchers := by
    rw [e1, e2]
    exact index2value_abs _ _ _ _ _
  have h2 : ∀ x, index2value
      ⟨(s ++ [a, b, Value.table TableRef.searchers]) ++ [x], g, t⟩
      ((s.length : Int) + 3) = Value.table TableRef.searchers := by
    intro x
    have e3 : (s ++ [a, b, Value.table TableRef.searchers]) ++ [x]
        = (s ++ [a, b]) ++ Value.table TableRef.searchers :: [x] := by simp
    rw [e3, e2]
    exact index2value_abs _ _ _ _ _
  simp only [lua_rawgeti, push, h1]
  simp only [lua_rawseti, h2, index2value_top, List.dropLast_concat]

theorem shiftLoop_eq (s : List Value) (a b : Value) (g : List (String × Value)) :
    ∀ (i : Nat) (t : LuaTable),
      init_shiftLoop ((s.length : Int) + 3) i
          ⟨s ++ [a, b, Value.table TableRef.searchers], g, t⟩
        = ⟨s ++ [a, b, Value.table TableRef.searchers], g, LuaTable.shift i t⟩ := by
  intro i
  induction i with
  | zero => intro t; rfl
  | succ i ih =>
    intro t
    simp only [init_shiftLoop, LuaTable.shift]
    by_cases hi : i + 1 > 2
    · simp only [hi, if_true]
      rw [shift_step, ih]
    · simp only [hi, if_false]

/-- Lines 176-189 as a function of the searchers table: the shift from slot
`rawlen + 1` down to slot 3, then the write of `f` into slot 2; the three values pushed
stay on the stack. -/
theorem init_spliceLoader_eq (f : CFunction) (vm : LuaVM)
    (hpkg : getGlobal vm.globals "package" = Value.table TableRef.package) :
    init_spliceLoader f vm =
      ⟨vm.stack ++ [Value.cfunction f, Value.table TableRef.package,
                    Value.table TableRef.searchers],
       vm.globals,
       (LuaTable.shift (vm.searchers.rawlen + 1) vm.searchers).rawseti 2 (Value.cfunction f)⟩ := by
  obtain ⟨s, g, t⟩ := vm
  simp only at hpkg
  have hlen : lua_gettop ⟨s ++ [Value.cfunction f] ++ [Value.table TableRef.package]
      ++ [Value.table TableRef.searchers], g, t⟩ = (s.length : Int) + 3 := by
    simp only [lua_gettop, List.length_append, List.length_cons, List.length_nil]
    push_cast
    ring
  have hst : s ++ [Value.cfunction f] ++ [Value.table TableRef.package]
      ++ [Value.table TableRef.searchers]
      = s ++ [Value.cfunction f, Value.table TableRef.package,
              Value.table TableRef.searchers] := by simp
  have hF : index2value ⟨s ++ [Value.cfunction f, Value.table TableRef.package,
      Value.table TableRef.searchers], g,
      LuaTable.shift (t.rawlen + 1) t⟩ ((s.length : Int) + 1) = Value.cfunction f :=
    index2value_abs _ _ _ _ _
  have hS : index2value ⟨s ++ [Value.cfunction f, Value.table TableRef.package,
      Value.table TableRef.searchers], g, t⟩ ((s.length : Int) + 3)
      = Value.table TableRef.searchers := by
    have e1 : s ++ [Value.cfunction f, Value.table TableRef.package,
        Value.table TableRef.searchers]
        = (s ++ [Value.cfunction f, Value.table TableRef.package])
          ++ Value.table TableRef.searchers :: [] := by simp
    have e2 : ((s.length : Int) + 3)
        = (((s ++ [Value.cfunction f, Value.table TableRef.package]).length : Nat) : Int) + 1 := by
      simp only [List.length_append, List.length_cons, List.length_nil]
      push_cast
      ring
    rw [e1, e2]
    exact index2value_abs _ _ _ _ _
  have hS2 : ∀ x t2, index2value ⟨(s ++ [Value.cfunction f, Value.table TableRef.package,
      Value.table TableRef.searchers]) ++ [x], g, t2⟩ ((s.length : Int) + 3)
      = Value.table TableRef.searchers := by
    intro x t2
    have e1 : (s ++ [Value.cfunction f, Value.table TableRef.package,
        Value.table TableRef.searchers]) ++ [x]
        = (s ++ [Value.cfunction f, Value.table TableRef.package])
          ++ Value.table TableRef.searchers :: [x] := by simp
    have e2 : ((s.length : Int) + 3)
        = (((s ++ [Value.cfunction f, Value.table TableRef.package]).length : Nat) : Int) + 1 := by
      simp only [List.length_append, List.length_cons, List.length_nil]
      push_cast
      ring
    rw [e1, e2]
    exact index2value_abs _ _ _ _ _
  have hgt : lua_gettop ⟨s ++ [Value.cfunction f], g, t⟩ = (s.length : Int) + 1 := by
    simp [lua_gettop]
  simp only [init_spliceLoader, lua_pushcfunction, lua_getglobal, lua_getfield, push,
    index2value_top, hpkg, if_true, hlen, hgt]
  simp only [hst, lua_rawlen, hS, shiftLoop_eq, lua_pushvalue, push, hF, lua_rawseti, hS2,
    index2value_top, List.dropLast_concat]

end LuaState

namespace LuaTable

theorem rawgeti_enumFrom (xs : List Value) : ∀ (n i : Nat),
    rawgeti ((xs.enumFrom n).filter (fun e => decide (e.2 ≠ Value.nil))) i
      = if n ≤ i then xs.getD (i - n) Value.nil else Value.nil := by
  induction xs with
  | nil => intro n i; simp [rawgeti]
  | cons x xs ih =>
    intro n i
    simp only [List.enumFrom_cons, List.filter]
    by_cases hx : x = Value.nil
    · subst hx
      simp only [ne_eq, not_true_eq_false, decide_False]
      rw [ih]
      by_cases h1 : n + 1 ≤ i
      · have h2 : n ≤ i := by omega
        have h3 : i - n = (i - (n + 1)) + 1 := by omega
        simp only [h1, h2, if_true, h3, List.getD_cons_succ]
      · by_cases h2 : n ≤ i
        · have h3 : i - n = 0 := by omega
          simp [h1, h2, h3]
        · simp [h1, h2]
    · simp only [ne_eq, hx, not_false_eq_true, decide_True, rawgeti]
      rw [ih]
      by_cases h0 : n = i
      · subst h0
        simp
      · by_cases h1 : n + 1 ≤ i
        · have h2 : n ≤ i := by omega
          have h3 : i - n = (i - (n + 1)) + 1 := by omega
          simp only [h0, h1, h2, if_true, if_false, h3, List.getD_cons_succ]
        · have h2 : ¬ n ≤ i := by omega
          simp [h0, h1, h2]

theorem rawgeti_ofList (xs : List Value) (i : Nat) :
    rawgeti (ofList xs) (i + 1) = xs.getD i Value.nil := by
  unfold ofList
  rw [rawgeti_enumFrom]
  simp

/-- A list of non-nil values stored as a table is a chain of the length of the list. -/
theorem isChain_ofList (xs : List Value) (h : ∀ v ∈ xs, v ≠ Value.nil) :
    IsChain (ofList xs) xs.length := by
  constructor
  · intro i h1 h2
    obtain ⟨j, rfl⟩ : ∃ j, i = j + 1 := ⟨i - 1, by omega⟩
    rw [rawgeti_ofList]
    have hj : j < xs.length := by omega
    rw [List.getD_eq_getElem _ _ hj]
    exact h _ (List.getElem_mem hj)
  · intro i h1
    obtain ⟨j, rfl⟩ : ∃ j, i = j + 1 := ⟨i - 1, by omega⟩
    rw [rawgeti_ofList]
    exact List.getD_eq_default _ _ (by omega)

/-- Reading back a list of non-nil values stored as a table. -/
theorem toList_ofList (xs : List Value) (h : ∀ v ∈ xs, v ≠ Value.nil) :
    toList (ofList xs) = xs := by
  unfold toList
  rw [(isChain_ofList xs h).rawlen_eq]
  apply List.ext_getElem
  · simp
  · intro n h1 h2
    simp only [List.getElem_map, List.getElem_range, rawgeti_ofList]
    exact List.getD_eq_getElem _ _ h2

/-- Slot by slot, the table that lines 184-189 leave. -/
theorem rawgeti_splice (t : LuaTable) (L : Nat) (v : Value) (j : Nat) :
    rawgeti (rawseti (shift (L + 1) t) 2 v) j
      = if j = 2 then v else if 3 ≤ j ∧ j ≤ L + 1 then rawgeti t (j - 1) else rawgeti t j := by
  rw [rawgeti_rawseti, rawgeti_shift]

end LuaTable

/-! ## The loader splice -/

/-- C1. For every resolver chain of length `L ≥ 1` in `package.searchers`, lines 176-189 of
`LuaState::init` leave a chain of length `L + 1` whose slot 1 is the original slot 1,
whose slot 2 is the loader pushed at line 176, and whose slot `i + 1` is the original
slot `i` for every `2 ≤ i ≤ L`; read as a list, the new chain is the first resolver,
the loader, then the remaining resolvers in their order. -/
theorem loader_splice (f : CFunction) (vm : LuaVM) (L : Nat)
    (hpkg : getGlobal vm.globals "package" = Value.table TableRef.package)
    (hchain : vm.searchers.IsChain L) (hL : 1 ≤ L) :
    ((LuaState.init_spliceLoader f vm).searchers).IsChain (L + 1)
    ∧ ((LuaState.init_spliceLoader f vm).searchers).rawlen = L + 1
    ∧ ((LuaState.init_spliceLoader f vm).searchers).rawgeti 1 = vm.searchers.rawgeti 1
    ∧ ((LuaState.init_spliceLoader f vm).searchers).rawgeti 2 = Value.cfunction f
    ∧ (∀ i, 2 ≤ i → i ≤ L →
        ((LuaState.init_spliceLoader f vm).searchers).rawgeti (i + 1) = vm.searchers.rawgeti i)
    ∧ ((LuaState.init_spliceLoader f vm).searchers).toList
        = vm.searchers.toList.take 1 ++ [Value.cfunction f] ++ vm.searchers.toList.drop 1 := by
  rw [LuaState.init_spliceLoader_eq f vm hpkg, hchain.rawlen_eq]
  simp only
  have hget := LuaTable.rawgeti_splice vm.searchers L (Value.cfunction f)
  have hc : ((LuaTable.shift (L + 1) vm.searchers).rawseti 2 (Value.cfunction f)).IsChain (L + 1) := by
    constructor
    · intro i h1 h2
      rw [hget]
      by_cases e2 : i = 2
      · simp [e2]
      · by_cases e3 : 3 ≤ i ∧ i ≤ L + 1
        · simp only [e2, e3, and_self, if_true, if_false]
          exact hchain.1 (i - 1) (by omega) (by omega)
        · simp only [e2, e3, if_false]
          exact hchain.1 i h1 (by omega)
    · intro i h1
      rw [hget]
      have e2 : ¬ i = 2 := by omega
      have e3 : ¬ (3 ≤ i ∧ i ≤ L + 1) := by omega
      simp only [e2, e3, if_false]
      exact hchain.2 i (by omega)
  refine ⟨hc, hc.rawlen_eq, ?_, ?_, ?_, ?_⟩
  · rw [hget]
    simp
  · rw [hget]
    simp
  · intro i h1 h2
    rw [hget]
    have e2 : ¬ i + 1 = 2 := by omega
    have e3 : 3 ≤ i + 1 ∧ i + 1 ≤ L + 1 := by omega
    simp [e2, e3]
  · unfold LuaTable.toList
    rw [hc.rawlen_eq, hchain.rawlen_eq]
    obtain ⟨k, rfl⟩ : ∃ k, L = k + 1 := ⟨L - 1, by omega⟩
    rw [List.range_succ_eq_map (k + 1), List.range_succ_eq_map k]
    simp only [List.map_cons, List.map_map, List.take_succ_cons, List.take_zero,
      List.drop_succ_cons, List.drop_zero, List.cons_append, List.nil_append]
    rw [hget, hget]
    simp only [Nat.zero_add, OfNat.one_ne_ofNat, if_false, Nat.succ_eq_add_one, if_true]
    have e13 : ¬ (3 ≤ 1 ∧ 1 ≤ k + 1 + 1) := by omega
    simp only [e13, if_false, List.cons.injEq, true_and]
    apply List.map_congr_left
    intro i hi
    have hi2 : i < k := List.mem_range.mp hi
    simp only [Function.comp_apply, Nat.succ_eq_add_one]
    rw [hget]
    have e2 : ¬ i + 1 + 1 + 1 = 2 := by omega
    have e3 : 3 ≤ i + 1 + 1 + 1 ∧ i + 1 + 1 + 1 ≤ k + 1 + 1 := by omega
    simp only [e2, e3, and_self, if_true, if_false]
    rfl

/-- The two scenarios of C1: `[R1]` becomes `[R1, Loader]`, and a second splice gives
`[R1, Loader2, Loader]`; and the chain of the VM that `init` creates with the Lua 5.3
library. -/
theorem loader_splice_witness :
    ((LuaState.init_spliceLoader CFunction.loader
        (vmWithChain [Value.cfunction (CFunction.lib "searcher_preload")])).searchers).toList
      = [Value.cfunction (CFunction.lib "searcher_preload"), Value.cfunction CFunction.loader]
    ∧ ((LuaState.init_spliceLoader (CFunction.lib "loader2")
        (LuaState.init_spliceLoader CFunction.loader
          (vmWithChain [Value.cfunction (CFunction.lib "searcher_preload")]))).searchers).toList
      = [Value.cfunction (CFunction.lib "searcher_preload"),
         Value.cfunction (CFunction.lib "loader2"), Value.cfunction CFunction.loader]
    ∧ (find sysInitialized.vms 100).map (fun vm => vm.searchers.toList)
      = some [Value.cfunction (CFunction.lib "searcher_preload"),
              Value.cfunction CFunction.loader,
              Value.cfunction (CFunction.lib "searcher_Lua"),
              Value.cfunction (CFunction.lib "searcher_C"),
              Value.cfunction (CFunction.lib "searcher_Croot")] := by
  have hne : ∀ v ∈ [Value.cfunction (CFunction.lib "searcher_preload")], v ≠ Value.nil := by
    intro v hv
    simp only [List.mem_singleton] at hv
    subst hv
    exact fun h => Value.noConfusion h
  have h1 := loader_splice CFunction.loader
    (vmWithChain [Value.cfunction (CFunction.lib "searcher_preload")]) 1 rfl
    (LuaTable.isChain_ofList _ hne) (le_refl 1)
  have hg : getGlobal (LuaState.init_spliceLoader CFunction.loader
      (vmWithChain [Value.cfunction (CFunction.lib "searcher_preload")])).globals "package"
      = Value.table TableRef.package := by
    rw [LuaState.init_spliceLoader_eq CFunction.loader
      (vmWithChain [Value.cfunction (CFunction.lib "searcher_preload")]) rfl]
    rfl
  have h2 := loader_splice (CFunction.lib "loader2")
    (LuaState.init_spliceLoader CFunction.loader
      (vmWithChain [Value.cfunction (CFunction.lib "searcher_preload")])) 2 hg h1.1 (by omega)
  have e1 := h1.2.2.2.2.2
  have e2 := h2.2.2.2.2.2
  have e0 : (vmWithChain [Value.cfunction (CFunction.lib "searcher_preload")]).searchers.toList
      = [Value.cfunction (CFunction.lib "searcher_preload")] :=
    LuaTable.toList_ofList _ hne
  rw [e0] at e1
  rw [e1] at e2
  exact ⟨e1, e2, by decide⟩

/-! ## The bridge function `print` -/

/-- C8. For every logical name `fn`, the chunk name built by `snprintf(chunk,256,"@%s",fn)`
is the first 255 characters of `"@" ++ fn`: it is `"@" ++ fn` when that has at most 255
characters and has exactly 255 characters otherwise, so with the terminating NUL it fits
the 256-byte buffer; `doFile` passes this name to `doBuffer`, and `LuaState::loader`
passes it to `luaL_loadbuffer`. -/
theorem chunk_name_truncated (fn : CStr) :
    snprintf_at 256 fn = ('@' :: fn).take 255
    ∧ (snprintf_at 256 fn).length + 1 ≤ 256
    ∧ (('@' :: fn).length ≤ 255 → snprintf_at 256 fn = '@' :: fn)
    ∧ (255 < ('@' :: fn).length → (snprintf_at 256 fn).length = 255)
    ∧ (∀ (env : Env) (s : System) (this : WrapperId) (o : Wrapper) (buf : Bytes),
        find s.objects this = some o → LuaState.loadFile o (some fn) = some buf →
        LuaState.doFile env s this fn
          = LuaState.doBuffer env s this buf (('@' :: fn).take 255))
    ∧ (∀ (env : Env) (s : System) (L : Handle) (frame : LuaVM) (state : WrapperId)
          (o : Wrapper) (buf : Bytes),
        LuaState.get s L = some state → find s.objects state = some o →
        lua_tostring env frame 1 = some fn → LuaState.loadFile o (some fn) = some buf →
        ∃ r, LuaState.loader env s L frame = some r
          ∧ Event.loadbuffer buf (('@' :: fn).take 255) ∈ r.1.log
          ∧ loadbufferCount r.1.log = loadbufferCount s.log + 1) := by
  have h0 : snprintf_at 256 fn = ('@' :: fn).take 255 := rfl
  refine ⟨h0, ?_, ?_, ?_, ?_, ?_⟩
  · rw [h0, List.length_take]
    omega
  · intro h
    rw [h0]
    exact List.take_of_length_le h
  · intro h
    rw [h0, List.length_take]
    omega
  · intro env s this o buf ho hb
    simp only [LuaState.doFile, ho, hb, h0]
  · intro env s L frame state o buf hg ho hfn hb
    simp only [LuaState.loader, hg, ho, hfn, hb, h0]
    cases hc : env.compile buf (List.take 255 ('@' :: fn)) with
    | none =>
      refine ⟨_, rfl, ?_, ?_⟩
      · simp
      · simp [loadbufferCount, List.filter_append]
    | some msg =>
      refine ⟨_, rfl, ?_, ?_⟩
      · simp
      · simp [loadbufferCount, List.filter_append]

/-- The chunk name of a 300-character name has 255 characters, and `doFile` hands it to
`doBuffer`; a short name is kept whole. -/
theorem chunk_name_truncated_witness :
    (snprintf_at 256 (List.replicate 300 'a')).length = 255
    ∧ snprintf_at 256 "main.lua".toList = "@main.lua".toList
    ∧ LuaState.doFile testEnv sysWithLoader 0 (List.replicate 300 'a')
        = LuaState.doBuffer testEnv sysWithLoader 0 [2]
            (('@' :: List.replicate 300 'a').take 255) :=
  ⟨(chunk_name_truncated (List.replicate 300 'a')).2.2.2.1
     (by rw [List.length_cons, List.length_replicate]; omega),
   (chunk_name_truncated "main.lua".toList).2.2.1 (by decide),
   (chunk_name_truncated (List.replicate 300 'a')).2.2.2.2.1 testEnv sysWithLoader 0
     ⟨some testLoader, some 100⟩ [2] rfl (by decide)⟩

/-! ## Lemmas on maps -/

theorem find_eraseKey {β : Type} (m : List (Nat × β)) (k k2 : Nat) :
    find (eraseKey m k) k2 = if k2 = k then none else find m k2 := by
  induction m with
  | nil => simp [eraseKey, find]
  | cons e m ih =>
    obtain ⟨a, v⟩ := e
    unfold eraseKey at ih ⊢
    by_cases ha : a = k
    · subst ha
      simp only [List.filter, ne_eq, not_true_eq_false, decide_False, find]
      rw [ih]
      by_cases h2 : k2 = a
      · simp [h2]
      · have : ¬ a = k2 := fun h => h2 h.symm
        simp [h2, this]
    · simp only [List.filter, ne_eq, ha, not_false_eq_true, decide_True, find]
      rw [ih]
      by_cases h2 : k2 = k
      · subst h2
        simp [ha]
      · simp [h2]

theorem find_assign {β : Type} (m : List (Nat × β)) (k k2 : Nat) (v : β) :
    find (assign m k v) k2 = if k2 = k then some v else find m k2 := by
  simp only [assign, find, find_eraseKey]
  by_cases h2 : k2 = k
  · simp [h2]
  · have : ¬ k = k2 := fun h => h2 h.symm
    simp [h2, this]

theorem getGlobal_setGlobal (g : List (String × Value)) (n m : String) (v : Value) :
    getGlobal (setGlobal g n v) m = if m = n then v else getGlobal g m := by
  have hf : ∀ g : List (String × Value),
      getGlobal (g.filter (fun e => decide (e.1 ≠ n))) m
        = if m = n then Value.nil else getGlobal g m := by
    intro g
    induction g with
    | nil => simp [getGlobal]
    | cons e g ih =>
      obtain ⟨a, w⟩ := e
      by_cases ha : a = n
      · subst ha
        simp only [List.filter, ne_eq, not_true_eq_false, decide_False, getGlobal]
        rw [ih]
        by_cases h2 : m = a
        · simp [h2]
        · have : ¬ a = m := fun h => h2 h.symm
          simp [h2, this]
      · simp only [List.filter, ne_eq, ha, not_false_eq_true, decide_True, getGlobal]
        rw [ih]
        by_cases h2 : m = n
        · subst h2
          simp [ha]
        · simp [h2]
  simp only [setGlobal, getGlobal, hf]
  by_cases h2 : m = n
  · simp [h2]
  · have : ¬ n = m := fun h => h2 h.symm
    simp [h2, this]

theorem lua_pop_push (vm : LuaVM) (v : Value) : lua_pop (push vm v) 1 = vm := by
  obtain ⟨st, g, t⟩ := vm
  simp [lua_pop, push]

theorem lua_settop_push (vm : LuaVM) (extra : List Value) :
    lua_settop { vm with stack := vm.stack ++ extra } vm.stack.length = vm := by
  obtain ⟨st, g, t⟩ := vm
  simp [lua_settop]

/-! ## `doFile` and `doBuffer` -/

/-- C3, as the code has it. For every path, `doFile` on a Wrapper with no file loader
configured returns the empty `LuaVar()` and leaves the whole process state as it was:
it makes no log call at all, and attempts neither a compile nor a protected call. -/
theorem doFile_without_loader (env : Env) (s : System) (this : WrapperId) (fn : CStr)
    (o : Wrapper) (ho : find s.objects this = some o) (hd : o.loadFileDelegate = none) :
    LuaState.doFile env s this fn = some (s, LuaVar.empty) := by
  simp only [LuaState.doFile, ho, LuaState.loadFile, hd]

/-- `doFile("missing.lua")` on an initialized Wrapper without file loader. -/
theorem doFile_without_loader_witness :
    LuaState.doFile testEnv sysInitialized 0 "missing.lua".toList
      = some (sysInitialized, LuaVar.empty) :=
  doFile_without_loader testEnv sysInitialized 0 "missing.lua".toList ⟨none, some 100⟩ rfl rfl

/-- C3 as stated fails: `doFile("missing.lua")` on a Wrapper with no file loader returns
the empty result without any `Log::Error` call, so not with exactly one; in particular
`"Can't load file missing.lua"` is not logged. -/
theorem doFile_missing_logs_nothing :
    (find sysInitialized.objects 0).map (fun o => o.loadFileDelegate.isSome) = some false
    ∧ sysInitialized.log = []
    ∧ (LuaState.doFile testEnv sysInitialized 0 "missing.lua".toList).map
        (fun r => (r.2, errorLogCount r.1.log, r.1.log)) = some (LuaVar.empty, 0, []) := by
  decide

/-- C5. For every buffer that fails to compile, `doBuffer` on an Initialized Wrapper
returns the empty `LuaVar()`, makes exactly one `Log::Error` call
(`"DoBuffer failed: %s"` with the compiler's message), and makes no `lua_pcall`. -/
theorem doBuffer_compile_failure (env : Env) (s : System) (this : WrapperId) (buf : Bytes)
    (chunk msg : CStr) (hinit : Initialized s this)
    (hc : env.compile buf chunk = some msg) :
    ∃ s2, LuaState.doBuffer env s this buf chunk = some (s2, LuaVar.empty)
      ∧ s2.log = s.log ++ [Event.loadbuffer buf chunk,
                           Event.error "DoBuffer failed: %s" (some msg)]
      ∧ errorLogCount s2.log = errorLogCount s.log + 1
      ∧ pcallCount s2.log = pcallCount s.log := by
  obtain ⟨o, L, vm, ho, hL, hvm, hreg⟩ := hinit
  have ht : ∀ st g t, lua_tostring env ⟨st ++ [Value.str msg], g, t⟩ (-1) = some msg := by
    intro st g t
    simp only [lua_tostring, index2value_top]
  simp only [LuaState.doBuffer, ho, hL, hvm, LuaState.pushErrorHandler, hreg, hc,
    LuaState._pushErrorHandler, lua_pushcfunction, push, ht]
  refine ⟨_, rfl, rfl, ?_, ?_⟩
  · simp [errorLogCount, List.filter_append]
  · simp [pcallCount, List.filter_append]

/-- A buffer that does not compile, on the initialized wrapper 0. -/
theorem doBuffer_compile_failure_witness :
    ∃ s2, LuaState.doBuffer testEnv sysInitialized 0 [33] "chunk".toList
        = some (s2, LuaVar.empty)
      ∧ s2.log = sysInitialized.log ++ [Event.loadbuffer [33] "chunk".toList,
                           Event.error "DoBuffer failed: %s" (some "syntax error".toList)]
      ∧ errorLogCount s2.log = errorLogCount sysInitialized.log + 1
      ∧ pcallCount s2.log = pcallCount sysInitialized.log :=
  doBuffer_compile_failure testEnv sysInitialized 0 [33] "chunk".toList "syntax error".toList
    ⟨⟨none, some 100⟩, 100, _, rfl, rfl, rfl, rfl⟩ rfl

/-- C6. For every buffer that compiles and whose execution returns, whatever values it
returns, `doBuffer` on an Initialized Wrapper returns the empty `LuaVar()`. -/
theorem doBuffer_success_returns_empty (env : Env) (s : System) (this : WrapperId)
    (buf : Bytes) (chunk : CStr) (results : List Value) (o : Wrapper) (L : Handle)
    (vm : LuaVM) (ho : find s.objects this = some o) (hL : o.L = some L)
    (hvm : find s.vms L = some vm) (hreg : find s.stateMap L = some this)
    (hc : env.compile buf chunk = none)
    (hrun : (env.call buf chunk (lua_pushcfunction vm CFunction.error)).outcome
      = CallOutcome.returns results) :
    ∃ s2, LuaState.doBuffer env s this buf chunk = some (s2, LuaVar.empty)
      ∧ s2.log = s.log ++ [Event.loadbuffer buf chunk, Event.pcall (Value.chunk buf chunk)]
          ++ (env.call buf chunk (lua_pushcfunction vm CFunction.error)).events := by
  have hpop : lua_pop ⟨vm.stack ++ [Value.cfunction CFunction.error]
      ++ [Value.chunk buf chunk], vm.globals, vm.searchers⟩ 1
      = lua_pushcfunction vm CFunction.error :=
    lua_pop_push (lua_pushcfunction vm CFunction.error) (Value.chunk buf chunk)
  simp only [LuaState.doBuffer, ho, hL, hvm, LuaState.pushErrorHandler, hreg, hc,
    LuaState._pushErrorHandler, lua_pushcfunction, push, LuaState.lua_pcall,
    index2value_top, hpop]
  simp only [lua_pushcfunction, push] at hrun
  simp only [hrun, if_true]
  exact ⟨_, rfl, rfl⟩

/-- A script that returns a value, run on the initialized wrapper 0. -/
theorem doBuffer_success_returns_empty_witness :
    (testEnv.call [2] "chunk".toList (lua_pushcfunction
        ⟨[], (luaL_openlibs lua53 LuaVM.new).globals, []⟩ CFunction.error)).outcome
      = CallOutcome.returns [Value.other 42]
    ∧ ∃ s2, LuaState.doBuffer testEnv sysInitialized 0 [2] "chunk".toList
        = some (s2, LuaVar.empty)
      ∧ s2.log = sysInitialized.log ++ [Event.loadbuffer [2] "chunk".toList,
            Event.pcall (Value.chunk [2] "chunk".toList)]
          ++ (testEnv.call [2] "chunk".toList (lua_pushcfunction
              ((find sysInitialized.vms 100).getD LuaVM.new) CFunction.error)).events :=
  ⟨rfl, doBuffer_success_returns_empty testEnv sysInitialized 0 [2] "chunk".toList
    [Value.other 42] ⟨none, some 100⟩ 100 ((find sysInitialized.vms 100).getD LuaVM.new)
    rfl rfl rfl rfl rfl rfl⟩

/-! ## `close` -/

theorem close_idempotent (s : System) (this : WrapperId) :
    (LuaState.close s this).bind (fun s2 => LuaState.close s2 this) = LuaState.close s this := by
  cases ho : find s.objects this with
  | none => simp [LuaState.close, ho]
  | some o =>
    cases hL : o.L with
    | none => simp [LuaState.close, ho, hL]
    | some L => simp [LuaState.close, ho, hL, find_assign]

/-- C9, as the code has it. For every process state, `close()` on a Wrapper whose `L` is
null (already closed, or never initialized) leaves the registry, the Wrapper and the
allocated VMs unchanged and sets the static `world` to null, whatever it was; and for
every Wrapper, calling `close()` twice has the same effect as calling it once. -/
theorem close_closed_wrapper (s : System) (this : WrapperId) :
    (∀ o, find s.objects this = some o → o.L = none →
      LuaState.close s this = some { s with world := none })
    ∧ (LuaState.close s this).bind (fun s2 => LuaState.close s2 this)
        = LuaState.close s this := by
  refine ⟨?_, close_idempotent s this⟩
  intro o ho hL
  simp only [LuaState.close, ho, hL]

/-- Closing the never-initialized wrapper 1 while wrapper 0 is initialized. -/
theorem close_closed_wrapper_witness :
    LuaState.close ((run testEnv System.start opsTwoWrappers).getD System.start) 1
      = some { (run testEnv System.start opsTwoWrappers).getD System.start with world := none } :=
  (close_closed_wrapper ((run testEnv System.start opsTwoWrappers).getD System.start) 1).1
    ⟨none, none⟩ rfl rfl

/-- C9 as stated fails: with wrapper 0 initialized on the world 7 and wrapper 1 never
initialized, `close()` on wrapper 1 changes the cached host context from 7 to null. -/
theorem close_uninitialized_clears_world :
    (run testEnv System.start opsTwoWrappers).map
        (fun s => (s.world, (find s.objects 1).map (fun o => o.L))) = some (some 7, some none)
    ∧ ((run testEnv System.start opsTwoWrappers).bind (fun s => LuaState.close s 1)).map
        (fun s => s.world) = some none := by
  decide

/-! ## `init` -/

theorem lib_global_not_bridge (xs : List (String × LibValue)) (name : String) :
    ∀ f, getGlobal (xs.map (fun e => (e.1, e.2.toValue))) name = Value.cfunction f →
      ∃ n, f = CFunction.lib n := by
  induction xs with
  | nil => intro f h; simp [getGlobal] at h
  | cons e xs ih =>
    intro f h
    obtain ⟨k, v⟩ := e
    simp only [List.map_cons, getGlobal] at h
    by_cases hk : k = name
    · simp only [hk, if_true] at h
      cases v with
      | fn n =>
        simp only [LibValue.toValue, Value.cfunction.injEq] at h
        exact ⟨n, h.symm⟩
      | table n => simp [LibValue.toValue] at h
      | str n => simp [LibValue.toValue] at h
      | other n => simp [LibValue.toValue] at h
    · simp only [hk, if_false] at h
      exact ih f h

/-- The state of the new VM when `LuaObject::init` is called at line 191. -/
theorem init_vm_before_objectInit (env : Env) :
    LuaState.init_spliceLoader CFunction.loader
      (lua_setglobal (lua_pushcfunction (lua_setglobal (lua_pushcfunction
        (lua_setglobal (lua_pushcfunction (luaL_openlibs env.stdlib LuaVM.new)
          CFunction.import_) "import") CFunction.print) "print") CFunction.loadUI) "loadUI")
    = ⟨[Value.cfunction CFunction.loader, Value.table TableRef.package,
        Value.table TableRef.searchers],
       setGlobal (setGlobal (setGlobal (luaL_openlibs env.stdlib LuaVM.new).globals
         "import" (Value.cfunction CFunction.import_))
         "print" (Value.cfunction CFunction.print))
         "loadUI" (Value.cfunction CFunction.loadUI),
       (LuaTable.shift ((luaL_openlibs env.stdlib LuaVM.new).searchers.rawlen + 1)
          (luaL_openlibs env.stdlib LuaVM.new).searchers).rawseti 2
          (Value.cfunction CFunction.loader)⟩ := by
  have h3 : lua_setglobal (lua_pushcfunction (lua_setglobal (lua_pushcfunction
        (lua_setglobal (lua_pushcfunction (luaL_openlibs env.stdlib LuaVM.new)
          CFunction.import_) "import") CFunction.print) "print") CFunction.loadUI) "loadUI"
      = ⟨[], setGlobal (setGlobal (setGlobal (luaL_openlibs env.stdlib LuaVM.new).globals
         "import" (Value.cfunction CFunction.import_))
         "print" (Value.cfunction CFunction.print))
         "loadUI" (Value.cfunction CFunction.loadUI),
         (luaL_openlibs env.stdlib LuaVM.new).searchers⟩ := by
    simp [lua_setglobal, lua_pushcfunction, push, index2value, luaL_openlibs, LuaVM.new]
  rw [h3, LuaState.init_spliceLoader_eq]
  · rfl
  · simp only [getGlobal_setGlobal]
    have e1 : ¬ "package" = "loadUI" := by decide
    have e2 : ¬ "package" = "print" := by decide
    have e3 : ¬ "package" = "import" := by decide
    simp [e1, e2, e3, luaL_openlibs, getGlobal]

/-- C4, as the code has it. After a successful `init()`, provided `LuaObject::init` rebinds
none of the four names, the VM globals `import`, `print` and `loadUI` are bound to the
bridge functions `import`, `print` and `loadUI`; the global `error` is not bound by
`init`: it keeps the value `luaL_openlibs` gave it, which is not the bridge function
`error`; the bridge function `error` is what `_pushErrorHandler` pushes on the stack. -/
theorem init_binds_three_globals (env : Env) (s : System) (this : WrapperId) (w : UWorld)
    (newstate : Handle) (o : Wrapper) (ho : find s.objects this = some o)
    (hfresh : find s.vms newstate = none)
    (hframe : ∀ (vm : LuaVM) (name : String), name ∈ ["import", "print", "loadUI", "error"] →
      getGlobal (env.objectInit vm).globals name = getGlobal vm.globals name) :
    ∃ s2 vm, LuaState.init env s this (some w) newstate = some (s2, true)
      ∧ find s2.vms newstate = some vm
      ∧ getGlobal vm.globals "import" = Value.cfunction CFunction.import_
      ∧ getGlobal vm.globals "print" = Value.cfunction CFunction.print
      ∧ getGlobal vm.globals "loadUI" = Value.cfunction CFunction.loadUI
      ∧ getGlobal vm.globals "error"
          = getGlobal (luaL_openlibs env.stdlib LuaVM.new).globals "error"
      ∧ getGlobal vm.globals "error" ≠ Value.cfunction CFunction.error
      ∧ (∀ vm0 : LuaVM, (LuaState._pushErrorHandler vm0).1.stack
          = vm0.stack ++ [Value.cfunction CFunction.error]) := by
  refine ⟨{ s with world := some w,
                   objects := assign s.objects this { o with L := some newstate },
                   stateMap := assign s.stateMap newstate this,
                   vms := assign s.vms newstate (lua_settop (env.objectInit
                     (LuaState.init_spliceLoader CFunction.loader
                       (lua_setglobal (lua_pushcfunction (lua_setglobal (lua_pushcfunction
                         (lua_setglobal (lua_pushcfunction (luaL_openlibs env.stdlib LuaVM.new)
                           CFunction.import_) "import") CFunction.print) "print")
                           CFunction.loadUI) "loadUI"))) 0) },
    lua_settop (env.objectInit
      (LuaState.init_spliceLoader CFunction.loader
        (lua_setglobal (lua_pushcfunction (lua_setglobal (lua_pushcfunction
          (lua_setglobal (lua_pushcfunction (luaL_openlibs env.stdlib LuaVM.new)
            CFunction.import_) "import") CFunction.print) "print")
            CFunction.loadUI) "loadUI"))) 0,
    ?_, ?_, ?_, ?_, ?_, ?_, ?_, ?_⟩
  · simp only [LuaState.init, ho, hfresh]
  · simp only [find_assign, if_true]
  all_goals try rw [init_vm_before_objectInit]
  · simp only [lua_settop]
    rw [hframe _ "import" (by simp)]
    simp only [getGlobal_setGlobal]
    have e1 : ¬ "import" = "loadUI" := by decide
    have e2 : ¬ "import" = "print" := by decide
    simp [e1, e2]
  · simp only [lua_settop]
    rw [hframe _ "print" (by simp)]
    simp only [getGlobal_setGlobal]
    have e1 : ¬ "print" = "loadUI" := by decide
    simp [e1]
  · simp only [lua_settop]
    rw [hframe _ "loadUI" (by simp)]
    simp only [getGlobal_setGlobal]
    simp
  · simp only [lua_settop]
    rw [hframe _ "error" (by simp)]
    simp only [getGlobal_setGlobal]
    have e1 : ¬ "error" = "loadUI" := by decide
    have e2 : ¬ "error" = "print" := by decide
    have e3 : ¬ "error" = "import" := by decide
    simp [e1, e2, e3]
  · simp only [lua_settop]
    rw [hframe _ "error" (by simp)]
    simp only [getGlobal_setGlobal]
    have e1 : ¬ "error" = "loadUI" := by decide
    have e2 : ¬ "error" = "print" := by decide
    have e3 : ¬ "error" = "import" := by decide
    have e4 : ¬ "package" = "error" := by decide
    simp only [e1, e2, e3, if_false, luaL_openlibs, LuaVM.new, getGlobal, e4, List.append_nil]
    intro h
    obtain ⟨n, hn⟩ := lib_global_not_bridge _ _ _ h
    exact CFunction.noConfusion hn
  · intro vm0
    rfl

/-- The globals of the VM of wrapper 0 after `init` with the Lua 5.3 library. -/
theorem init_binds_three_globals_witness :
    ∃ s2 vm, LuaState.init testEnv ((run testEnv System.start [Op.construct 0]).getD
          System.start) 0 (some 7) 100 = some (s2, true)
      ∧ find s2.vms 100 = some vm
      ∧ getGlobal vm.globals "import" = Value.cfunction CFunction.import_
      ∧ getGlobal vm.globals "print" = Value.cfunction CFunction.print
      ∧ getGlobal vm.globals "loadUI" = Value.cfunction CFunction.loadUI
      ∧ getGlobal vm.globals "error"
          = getGlobal (luaL_openlibs testEnv.stdlib LuaVM.new).globals "error"
      ∧ getGlobal vm.globals "error" ≠ Value.cfunction CFunction.error
      ∧ (∀ vm0 : LuaVM, (LuaState._pushErrorHandler vm0).1.stack
          = vm0.stack ++ [Value.cfunction CFunction.error]) :=
  init_binds_three_globals testEnv ((run testEnv System.start [Op.construct 0]).getD
    System.start) 0 7 100 ⟨none, none⟩ rfl rfl (fun _ _ _ => rfl)

/-- C4 as stated fails: after a successful `init()` with the Lua 5.3 library, the global
`error` is the library function `luaB_error`, not the bridge function `error`. -/
theorem init_leaves_global_error :
    ((run testEnv System.start [Op.construct 0]).bind
        (fun s => LuaState.init testEnv s 0 (some 7) 100)).map
      (fun r => (r.2, (find r.1.vms 100).map (fun vm => getGlobal vm.globals "error")))
      = some (true, some (Value.cfunction (CFunction.lib "luaB_error")))
    ∧ Value.cfunction (CFunction.lib "luaB_error") ≠ Value.cfunction CFunction.error := by
  decide

/-! ## The registry -/

/-- After a successful `init()`, `LuaState::get` on the new handle returns the Wrapper. -/
theorem get_after_init (env : Env) (s s2 : System) (this : WrapperId) (wld : Option UWorld)
    (newstate : Handle) (h : LuaState.init env s this wld newstate = some (s2, true)) :
    LuaState.get s2 newstate = some this := by
  unfold LuaState.init at h
  cases ho : find s.objects this with
  | none => simp [ho] at h
  | some o =>
    cases wld with
    | none => simp [ho] at h
    | some w =>
      cases hv : find s.vms newstate with
      | some vm => simp [ho, hv] at h
      | none =>
        simp only [ho, hv, Option.some.injEq, Prod.mk.injEq, and_true] at h
        subst h
        simp [LuaState.get, find_assign]

/-- After `close()`, `LuaState::get` on the handle the Wrapper held returns null. -/
theorem get_after_close (s s2 : System) (this : WrapperId) (o : Wrapper) (L : Handle)
    (ho : find s.objects this = some o) (hL : o.L = some L)
    (h : LuaState.close s this = some s2) : LuaState.get s2 L = none := by
  simp only [LuaState.close, ho, hL, Option.some.injEq] at h
  subst h
  simp [LuaState.get, find_eraseKey]

theorem registryOk_construct (s s2 : System) (this : WrapperId) (hs : RegistryOk s)
    (h : LuaState.LuaState s this = some s2) : RegistryOk s2 := by
  unfold LuaState.LuaState at h
  cases ho : find s.objects this with
  | some o => simp [ho] at h
  | none =>
    simp only [ho, Option.some.injEq] at h
    subst h
    refine ⟨?_, hs.2⟩
    intro h w hw
    obtain ⟨o, ho2, hL⟩ := hs.1 h w hw
    have hne : ¬ w = this := by
      intro e
      rw [e, ho] at ho2
      exact Option.noConfusion ho2
    exact ⟨o, by simp only [find_assign, hne, if_false]; exact ho2, hL⟩

theorem registryOk_init (env : Env) (s : System) (r : System × Bool) (this : WrapperId)
    (wld : Option UWorld) (newstate : Handle) (o : Wrapper) (hs : RegistryOk s)
    (ho : find s.objects this = some o) (hL : o.L = none)
    (h : LuaState.init env s this wld newstate = some r) : RegistryOk r.1 := by
  unfold LuaState.init at h
  cases wld with
  | none =>
    simp only [ho, Option.some.injEq] at h
    subst h
    exact hs
  | some w =>
    cases hv : find s.vms newstate with
    | some vm => simp [ho, hv] at h
    | none =>
      simp only [ho, hv, Option.some.injEq] at h
      subst h
      constructor
      · intro h w2 hw
        simp only [find_assign] at hw ⊢
        by_cases e : h = newstate
        · simp only [e, if_true, Option.some.injEq] at hw
          subst hw
          exact ⟨{ o with L := some newstate }, by simp only [if_true], by rw [e]⟩
        · simp only [e, if_false] at hw
          obtain ⟨o2, ho2, hL2⟩ := hs.1 h w2 hw
          have hne : ¬ w2 = this := by
            intro e2
            rw [e2, ho] at ho2
            simp only [Option.some.injEq] at ho2
            rw [← ho2, hL] at hL2
            exact Option.noConfusion hL2
          exact ⟨o2, by simp only [hne, if_false]; exact ho2, hL2⟩
      · intro h
        simp only [find_assign]
        by_cases e : h = newstate
        · simp [e]
        · simp only [e, if_false]
          exact hs.2 h

theorem registryOk_close (s s2 : System) (this : WrapperId) (hs : RegistryOk s)
    (h : LuaState.close s this = some s2) :
    RegistryOk s2 ∧ ∃ o, find s2.objects this = some o ∧ o.L = none := by
  unfold LuaState.close at h
  cases ho : find s.objects this with
  | none => simp [ho] at h
  | some o =>
    cases hL : o.L with
    | none =>
      simp only [ho, hL, Option.some.injEq] at h
      subst h
      exact ⟨hs, o, ho, hL⟩
    | some L =>
      simp only [ho, hL, Option.some.injEq] at h
      subst h
      refine ⟨⟨?_, ?_⟩, ⟨{ o with L := none }, by simp only [find_assign, if_true], rfl⟩⟩
      · intro h w hw
        simp only [find_eraseKey] at hw
        by_cases e : h = L
        · simp [e] at hw
        · simp only [e, if_false] at hw
          obtain ⟨o2, ho2, hL2⟩ := hs.1 h w hw
          have hne : ¬ w = this := by
            intro e2
            rw [e2, ho] at ho2
            simp only [Option.some.injEq] at ho2
            rw [← ho2, hL] at hL2
            simp only [Option.some.injEq] at hL2
            exact e hL2.symm
          exact ⟨o2, by simp only [find_assign, hne, if_false]; exact ho2, hL2⟩
      · intro h
        simp only [find_eraseKey]
        by_cases e : h = L
        · simp [e]
        · simp only [e, if_false]
          exact hs.2 h

theorem registryOk_destroy (s s2 : System) (this : WrapperId) (hs : RegistryOk s)
    (h : LuaState.destroy s this = some s2) : RegistryOk s2 := by
  unfold LuaState.destroy at h
  cases hc : LuaState.close s this with
  | none => simp [hc] at h
  | some s1 =>
    simp only [hc, Option.some.injEq] at h
    subst h
    obtain ⟨h1, o, ho, hL⟩ := registryOk_close s s1 this hs hc
    refine ⟨?_, h1.2⟩
    intro h w hw
    obtain ⟨o2, ho2, hL2⟩ := h1.1 h w hw
    have hne : ¬ w = this := by
      intro e2
      rw [e2, ho] at ho2
      simp only [Option.some.injEq] at ho2
      rw [← ho2, hL] at hL2
      exact Option.noConfusion hL2
    exact ⟨o2, by simp only [find_eraseKey, hne, if_false]; exact ho2, hL2⟩

theorem registryOk_stepGuarded (env : Env) (s s2 : System) (op : Op) (hs : RegistryOk s)
    (h : stepGuarded env s op = some s2) : RegistryOk s2 := by
  cases op with
  | construct this => exact registryOk_construct s s2 this hs h
  | init this wld newstate =>
    simp only [stepGuarded] at h
    cases ho : find s.objects this with
    | none => simp [ho] at h
    | some o =>
      cases hL : o.L with
      | some L => simp [ho, hL] at h
      | none =>
        simp only [ho, hL, step] at h
        cases hi : LuaState.init env s this wld newstate with
        | none => simp [hi] at h
        | some r =>
          simp only [hi, Option.some.injEq] at h
          subst h
          exact registryOk_init env s r this wld newstate o hs ho hL hi
  | close this => exact (registryOk_close s s2 this hs h).1
  | destroy this => exact registryOk_destroy s s2 this hs h

/-- When `init` is never called on a Wrapper whose `L` is not null, every reachable state
satisfies the registry invariant: each entry maps an allocated handle to a live Wrapper
that holds it, and each allocated handle has its entry. -/
theorem registryOk_runGuarded (env : Env) (ops : List Op) : ∀ (s s2 : System),
    RegistryOk s → runGuarded env s ops = some s2 → RegistryOk s2 := by
  induction ops with
  | nil =>
    intro s s2 hs h
    simp only [runGuarded, Option.some.injEq] at h
    subst h
    exact hs
  | cons op ops ih =>
    intro s s2 hs h
    simp only [runGuarded] at h
    cases h1 : stepGuarded env s op with
    | none => simp [h1] at h
    | some s1 =>
      simp only [h1] at h
      exact ih s1 s2 (registryOk_stepGuarded env s s1 op hs h1) h

theorem registryOk_start : RegistryOk System.start :=
  ⟨fun h w hw => by simp [System.start, find] at hw, fun h => rfl⟩

/-- A sequence that respects the discipline runs: close before the second `init`. -/
theorem runGuarded_example :
    (runGuarded testEnv System.start
        [Op.construct 0, Op.init 0 (some 7) 100, Op.close 0, Op.init 0 (some 7) 101,
         Op.destroy 0]).map (fun s => (s.stateMap, s.vms.length)) = some ([], 0)
    ∧ runGuarded testEnv System.start opsInitInitClose = none := by
  constructor
  · decide
  · rfl

/-- Under the registry invariant, after `close()` no handle at all is mapped to the
Wrapper. -/
theorem get_after_close_guarded (s s2 : System) (this : WrapperId) (hs : RegistryOk s)
    (h : LuaState.close s this = some s2) : ∀ L, LuaState.get s2 L ≠ some this := by
  intro L hg
  obtain ⟨h1, o, ho, hL⟩ := registryOk_close s s2 this hs h
  obtain ⟨o2, ho2, hL2⟩ := h1.1 L this hg
  rw [ho] at ho2
  simp only [Option.some.injEq] at ho2
  rw [← ho2, hL] at hL2
  exact Option.noConfusion hL2

/-- C2, the code at the failing input: wrapper 0 is initialized on the handle 100, then
again on the handle 101, then closed. `LuaState::get` still returns wrapper 0 for the
handle 100, which the wrapper registered, although the wrapper is closed. -/
theorem get_after_init_init_close :
    (run testEnv System.start opsInitInitClose).map
        (fun s => (LuaState.get s 100, LuaState.get s 101, (find s.objects 0).map (fun o => o.L)))
      = some (some 0, none, some none) := by
  decide

/-- C10, the code at the failing input: wrapper 0 is initialized on the handle 100, then
again on the handle 101, then destroyed. The registry still holds the entry
`100 ↦ wrapper 0`, the wrapper is no longer a live object, and the `lua_State` 100 was
never closed. -/
theorem registry_after_init_init_destroy :
    (run testEnv System.start opsInitInitDestroy).map
        (fun s => (s.stateMap, (find s.objects 0).isSome, (find s.vms 100).isSome))
      = some ([(100, 0)], false, true) := by
  decide

end slua
